import Mathlib

/-!
# Verification of the GDSO TIS client core

A shallow embedding of the identifier-resolution and endpoint-discovery
pipeline of the `gdso-tis-client` repository (lib/gdso-service.js,
lib/utils.js, lib/manufacturers.js, lib/errors.js, and the standalone
gdso-ons-resolver script), together with theorems settling the claims
about it.

Conventions of the embedding:
* JavaScript strings are Lean `String`s; character-level work happens on
  `List Char` so that every definition is structurally recursive and
  evaluates by `rfl`/`decide`.
* `Date.now()` timestamps are explicit `Int` parameters.
* Fallible code returns `Except GdsoErr`; `null`/`undefined` data is
  `Option`.
* Network collaborators (DNS-over-HTTPS fetch, token endpoint fetch,
  manufacturer HTTP GET) are oracle parameters; an oracle indexed by the
  attempt number feeds the retry wrapper.
* JWT base64/JSON decoding of a token's middle segment is an oracle
  (the spec treats JWT validation as a black box); a decoded payload is
  assumed to carry a numeric `exp` claim, as real tokens do.
-/

set_option maxRecDepth 10000

namespace Gdso

/-! ## Small JavaScript-flavoured helpers -/

/-- Numeric value of a decimal digit character, as `parseInt(c, 10)` gives
for a digit.  On a non-digit character the JavaScript code would produce
`NaN`; the spec (§4.1) declares that case undefined behaviour, and this
model simply returns `c.toNat - 48` there. -/
def digitVal (c : Char) : Nat := c.toNat - 48

/-- Whitespace for the purposes of `\s` in the regexes and of `trim`
(inputs are ASCII). -/
def isWsChar (c : Char) : Bool :=
  c = ' ' || c = '\t' || c = '\n' || c = '\r'

/-- `\S`: a non-whitespace character. -/
def isNonWs (c : Char) : Bool := !isWsChar c

/-- `String.prototype.trim()` on ASCII input. -/
def trimChars (l : List Char) : List Char :=
  ((l.dropWhile isWsChar).reverse.dropWhile isWsChar).reverse

def jsTrim (s : String) : String := String.mk (trimChars s.toList)

/-- `l` with the literal sequence `p` stripped from its front, when `p`
starts it. -/
def stripPrefixChars : List Char → List Char → Option (List Char)
  | [], l => some l
  | _ :: _, [] => none
  | p :: ps, c :: cs => if c = p then stripPrefixChars ps cs else none

/-- `String.prototype.startsWith`. -/
def strStartsWith (s pre : String) : Bool :=
  (stripPrefixChars pre.toList s.toList).isSome

/-- `String.prototype.split(sep)` for a one-character separator. -/
def splitOnChar (sep : Char) : List Char → List (List Char)
  | [] => [[]]
  | c :: cs =>
    let r := splitOnChar sep cs
    if c = sep then [] :: r
    else
      match r with
      | [] => [[c]]
      | h :: t => (c :: h) :: t

/-- The decimal number denoted by a digit string (captures of `(\d+)` are
digit-only, so `parseInt` is exact on them). -/
def natOfDigits (l : List Char) : Nat :=
  l.foldl (fun acc c => acc * 10 + digitVal c) 0

/-- `[...new Set(xs)]`: deduplication keeping the first occurrence of each
element, in order. -/
def jsSetDedup [DecidableEq α] (xs : List α) : List α :=
  (xs.foldl (fun acc x => if x ∈ acc then acc else acc ++ [x]) [])

/-- `String.prototype.replace(needle, repl)` with a plain-string needle:
replaces the first occurrence only.  (The replacement strings used by the
code contain no `$` patterns.) -/
def replaceFirstChars (needle repl : List Char) : List Char → List Char
  | [] => []
  | c :: cs =>
    match stripPrefixChars needle (c :: cs) with
    | some rest => repl ++ rest
    | none => c :: replaceFirstChars needle repl cs

def replaceFirst (s needle repl : String) : String :=
  String.mk (replaceFirstChars needle.toList repl.toList s.toList)

/-- Uppercase hexadecimal digit. -/
def hexDigit (n : Nat) : Char :=
  if n < 10 then Char.ofNat (48 + n) else Char.ofNat (55 + n)

/-- Characters `encodeURIComponent` leaves unescaped:
`A-Z a-z 0-9 - _ . ! ~ * ' ( )`. -/
def uriUnreserved (c : Char) : Bool :=
  c.isAlphanum || c = '-' || c = '_' || c = '.' || c = '!' || c = '~' ||
    c = '*' || c = Char.ofNat 39 || c = '(' || c = ')'

/-- `encodeURIComponent` on ASCII input (each escaped character is one
percent-encoded byte; the identifiers fed to it are ASCII). -/
def encodeURIComponent (s : String) : String :=
  String.mk (s.toList.flatMap fun c =>
    if uriUnreserved c then [c]
    else ['%', hexDigit (c.toNat / 16 % 16), hexDigit (c.toNat % 16)])

/-! ## Error model (lib/errors.js)

A closed enumeration of the error classes, keeping the structured context
the claims mention.  `retryExhausted` wraps the last underlying error. -/

inductive GdsoErr where
  /-- `SgtinParseError` (code `SGTIN_PARSE_ERROR`). -/
  | sgtinParse (sgtin : String)
  /-- `DnsResolutionError` (code `DNS_RESOLUTION_ERROR`), with
  `details.httpStatus`. -/
  | dnsResolution (fqdn : String) (httpStatus : Option Nat)
  /-- `NaptrNotFoundError` (code `NAPTR_NOT_FOUND`). -/
  | naptrNotFound (fqdn : String) (gtin : String)
  /-- `AuthenticationError` (code `AUTH_ERROR`), with
  `details.httpStatus`. -/
  | authentication (reason : String) (httpStatus : Option Nat)
  /-- `CredentialsMissingError` (code `CREDENTIALS_MISSING`). -/
  | credentialsMissing (env : String)
  /-- `TimeoutError` (name `TimeoutError`). -/
  | timeout (operation : String)
  /-- An environment-level network error carrying a Node `error.code`
  such as `ECONNRESET`, `ENOTFOUND` or `ETIMEDOUT`. -/
  | netCode (code : String)
  /-- A `SyntaxError` escaping `JSON.parse` (not a `GdsoError` in the
  source, but it propagates out of `authenticate` untyped). -/
  | jsonSyntax
  /-- `RetryExhaustedError` (code `RETRY_EXHAUSTED`); the wrapped error
  object itself is modelled at the `withRetry` level
  (`RetryExhaustedE`), here only its `details.lastError` summary
  remains. -/
  | retryExhausted (operation : String) (attempts : Nat)
  deriving DecidableEq

/-! ## SGTIN parsing (gdso-service.js `parseSgtin`) -/

/-- A parsed SGTIN URN (`ParsedSgtin` in the source). -/
structure ParsedSgtin where
  companyPrefix : String
  indicatorItemRef : String
  serialNumber : String
  urn : String
  deriving DecidableEq

/-- The argument of `parseSgtin`: JavaScript accepts any value; `null`
(or any non-string) stands apart from genuine strings. -/
inductive SgtinInput where
  | null
  | str (s : String)
  deriving DecidableEq

/-- The literal part of `^urn:epc:id:sgtin:` as characters. -/
def sgtinUrnLead : List Char := "urn:epc:id:sgtin:".toList

/-- The suffix `(\d+)\.(\d+)\.(\d+)$` of the SGTIN regex, scanned
deterministically: each `\d+` is a maximal digit run (a digit never
matches `\.` or `$`, so greedy matching cannot backtrack). -/
def scanSgtinBody (l : List Char) : Option (List Char × List Char × List Char) :=
  let a := l.takeWhile Char.isDigit
  let r1 := l.dropWhile Char.isDigit
  if a.isEmpty then none else
  match r1 with
  | '.' :: r2 =>
    let b := r2.takeWhile Char.isDigit
    let r3 := r2.dropWhile Char.isDigit
    if b.isEmpty then none else
    match r3 with
    | '.' :: r4 =>
      let c := r4.takeWhile Char.isDigit
      let r5 := r4.dropWhile Char.isDigit
      if c.isEmpty then none else
      if r5.isEmpty then some (a, b, c) else none
    | _ => none
  | _ => none

/-- `parseSgtin` on a string value: the falsy check rejects `""`, then the
anchored regex `^urn:epc:id:sgtin:(\d+)\.(\d+)\.(\d+)$` must match in
full. -/
def parseSgtinStr (s : String) : Except GdsoErr ParsedSgtin :=
  if s = "" then .error (.sgtinParse s) else
  match stripPrefixChars sgtinUrnLead s.toList with
  | none => .error (.sgtinParse s)
  | some rest =>
    match scanSgtinBody rest with
    | none => .error (.sgtinParse s)
    | some (a, b, c) => .ok ⟨String.mk a, String.mk b, String.mk c, s⟩

/-- `parseSgtin`: `null`/non-string arguments fail the
`typeof sgtinUrn !== 'string'` guard. -/
def parseSgtin : SgtinInput → Except GdsoErr ParsedSgtin
  | .null => .error (.sgtinParse "null")
  | .str s => parseSgtinStr s

/-- The identifier grammar as the spec states it (§4.2/§6): scheme
prefix, then three non-empty all-digit segments separated by dots,
anchored at both ends.  Stated as a decomposition, independent of the
scanner above. -/
def SgtinGrammar (s : String) : Prop :=
  ∃ a b c : List Char,
    a ≠ [] ∧ b ≠ [] ∧ c ≠ [] ∧
    (∀ ch ∈ a, ch.isDigit = true) ∧ (∀ ch ∈ b, ch.isDigit = true) ∧
    (∀ ch ∈ c, ch.isDigit = true) ∧
    s.toList = sgtinUrnLead ++ a ++ '.' :: (b ++ '.' :: c)

/-! ## GS1 check digit (gdso-service.js `calculateCheckDigit`) -/

/-- The multiplier chosen by the loop body for the digit at index `i` of
a string of length `len`:
`(digits.length - i) % 2 === 0 ? 1 : 3`. -/
def checkDigitWeight (len i : Nat) : Nat :=
  if (len - i) % 2 = 0 then 1 else 3

/-- `calculateCheckDigit`: the `for` loop accumulating
`sum += parseInt(digits[i], 10) * multiplier`, then
`(10 - (sum % 10)) % 10`. -/
def calculateCheckDigit (digits : String) : Nat :=
  let l := digits.toList
  let sum := l.enum.foldl
    (fun acc p => acc + digitVal p.2 * checkDigitWeight l.length p.1) 0
  (10 - sum % 10) % 10

/-- The weighted sum exactly as the claim words it: the digit at index
`i` is weighted by `1` if `(length - i)` is even and `3` otherwise. -/
def claimWeightedSum (digits : String) : Nat :=
  ∑ i ∈ Finset.range digits.length,
    digitVal (digits.toList.getD i (Char.ofNat 48)) *
      checkDigitWeight digits.length i

/-- The check-digit formula under the claim's further assertion that the
*rightmost* digit always has weight 1 (alternating weights anchored so
that index `length - 1` gets 1). -/
def checkDigitRightmostOne (digits : String) : Nat :=
  let n := digits.length
  let sum := ∑ i ∈ Finset.range n,
    digitVal (digits.toList.getD i (Char.ofNat 48)) *
      (if (n - 1 - i) % 2 = 0 then 1 else 3)
  (10 - sum % 10) % 10

/-! ## GTIN-13 and FQDN derivation (gdso-service.js) -/

/-- `sgtinToGtin13`: indicator digit, item reference, the 13-digit
GTIN-14 base, appended check digit, leading character dropped.
(`parseSgtin` guarantees `indicatorItemRef` is non-empty, so `[0]` and
`substring(1)` are `take 1`/`drop 1` on its characters.) -/
def sgtinToGtin13 (parsed : ParsedSgtin) : String :=
  let indicator := String.mk (parsed.indicatorItemRef.toList.take 1)
  let itemRef := String.mk (parsed.indicatorItemRef.toList.drop 1)
  let gtin14Base := indicator ++ parsed.companyPrefix ++ itemRef
  let checkDigit := calculateCheckDigit gtin14Base
  String.mk ((gtin14Base ++ toString checkDigit).toList.drop 1)

/-- `gtinToFqdn`: digits reversed, dot-joined, ONS suffix appended.
`suffix` is `config.ons.suffix` of the active environment. -/
def gtinToFqdn (suffix : String) (gtin : String) : String :=
  let reversed := String.intercalate "."
    (gtin.toList.reverse.map fun c => String.mk [c])
  reversed ++ "." ++ suffix

/-! ## NAPTR record parsing

Two regex-based parsers exist in the repository:
* `resolveOns` (gdso-service.js) matches each answer record's `data`
  against the single pattern
  `^\d+\s+\d+\s+\S+\s+(\S+)\s+(!.*!)\s+\S+$` and then extracts the URL
  from the captured regexp field with `!.*!(https?:\/\/[^!]+)!`;
* the standalone ONS-resolver script's `parseNaptrRecords` first tries
  the quoted-field pattern
  `^(\d+)\s+(\d+)\s+"([^"]*)"\s+"([^"]*)"\s+"([^"]*)"\s+(\S+)$` and
  falls back to the bare pattern
  `^(\d+)\s+(\d+)\s+(\S+)\s+(\S+)\s+(!.*!)\s+(\S+)$`.

The scanners below implement those regexes' matching deterministically:
`\d+`/`\s+`/`\S+`/`[^"]*` runs are forced to be maximal because the
following literal cannot match their character class, and the only
backtracking freedom — the greedy `.*` inside `(!.*!)` and in the URL
pattern — is resolved by choosing the largest viable terminator, as a
backtracking engine does.  `.` is modelled as "any character" (the
records contain no newlines). -/

/-- All six fields of the bare-token NAPTR form
`^(\d+)\s+(\d+)\s+(\S+)\s+(\S+)\s+(!.*!)\s+(\S+)$`:
order, preference, flags, service, regexp, replacement. -/
structure BareNaptrFields where
  order : List Char
  preference : List Char
  flags : List Char
  service : List Char
  regexp : List Char
  replacement : List Char
  deriving DecidableEq

/-- Does the suffix `l` match `\s+\S+$` (what must follow the regexp
field)? -/
def naptrTailOk (l : List Char) : Bool :=
  let w := l.takeWhile isWsChar
  let rest := l.dropWhile isWsChar
  !w.isEmpty && !rest.isEmpty && rest.all isNonWs

/-- Split `r` as `(!.*!) \s+ \S+ $`: `r` must start with `!`, and the
greedy `.*` selects the **largest** index `k ≥ 1` with `r[k] = '!'`
whose remainder matches `\s+\S+$`.  Returns the captured
`!...!` field together with the replacement token. -/
def scanBangRegexpField (r : List Char) : Option (List Char × List Char) :=
  if r.head? ≠ some '!' then none else
  let pick := (List.range r.length).foldl
    (fun acc k =>
      if 1 ≤ k ∧ r.getD k ' ' = '!' ∧ naptrTailOk (r.drop (k + 1)) then
        some k
      else acc)
    none
  match pick with
  | none => none
  | some k =>
    some (r.take (k + 1), (r.drop (k + 1)).dropWhile isWsChar)

/-- Scanner for the bare-token NAPTR pattern. -/
def matchBareNaptr (l : List Char) : Option BareNaptrFields :=
  let d1 := l.takeWhile Char.isDigit
  let r1 := l.dropWhile Char.isDigit
  if d1.isEmpty then none else
  let w1 := r1.takeWhile isWsChar
  let r2 := r1.dropWhile isWsChar
  if w1.isEmpty then none else
  let d2 := r2.takeWhile Char.isDigit
  let r3 := r2.dropWhile Char.isDigit
  if d2.isEmpty then none else
  let w2 := r3.takeWhile isWsChar
  let r4 := r3.dropWhile isWsChar
  if w2.isEmpty then none else
  let flags := r4.takeWhile isNonWs
  let r5 := r4.dropWhile isNonWs
  if flags.isEmpty then none else
  let w3 := r5.takeWhile isWsChar
  let r6 := r5.dropWhile isWsChar
  if w3.isEmpty then none else
  let service := r6.takeWhile isNonWs
  let r7 := r6.dropWhile isNonWs
  if service.isEmpty then none else
  let w4 := r7.takeWhile isWsChar
  let r8 := r7.dropWhile isWsChar
  if w4.isEmpty then none else
  match scanBangRegexpField r8 with
  | none => none
  | some (rx, repl) => some ⟨d1, d2, flags, service, rx, repl⟩

/-- Scanner for the quoted-field NAPTR pattern
`^(\d+)\s+(\d+)\s+"([^"]*)"\s+"([^"]*)"\s+"([^"]*)"\s+(\S+)$`. -/
def matchQuotedNaptr (l : List Char) : Option BareNaptrFields :=
  let d1 := l.takeWhile Char.isDigit
  let r1 := l.dropWhile Char.isDigit
  if d1.isEmpty then none else
  let w1 := r1.takeWhile isWsChar
  let r2 := r1.dropWhile isWsChar
  if w1.isEmpty then none else
  let d2 := r2.takeWhile Char.isDigit
  let r3 := r2.dropWhile Char.isDigit
  if d2.isEmpty then none else
  let w2 := r3.takeWhile isWsChar
  let r4 := r3.dropWhile isWsChar
  if w2.isEmpty then none else
  match r4 with
  | '"' :: r5 =>
    let flags := r5.takeWhile (· ≠ '"')
    match r5.dropWhile (· ≠ '"') with
    | '"' :: r6 =>
      let w3 := r6.takeWhile isWsChar
      let r7 := r6.dropWhile isWsChar
      if w3.isEmpty then none else
      match r7 with
      | '"' :: r8 =>
        let service := r8.takeWhile (· ≠ '"')
        match r8.dropWhile (· ≠ '"') with
        | '"' :: r9 =>
          let w4 := r9.takeWhile isWsChar
          let r10 := r9.dropWhile isWsChar
          if w4.isEmpty then none else
          match r10 with
          | '"' :: r11 =>
            let rx := r11.takeWhile (· ≠ '"')
            match r11.dropWhile (· ≠ '"') with
            | '"' :: r12 =>
              let w5 := r12.takeWhile isWsChar
              let repl := r12.dropWhile isWsChar
              if w5.isEmpty then none else
              if repl.isEmpty then none else
              if repl.all isNonWs then some ⟨d1, d2, flags, service, rx, repl⟩
              else none
            | _ => none
          | _ => none
        | _ => none
      | _ => none
    | _ => none
  | _ => none

/-- After a candidate `!` terminator of the URL pattern's leading `!.*!`:
match `(https?:\/\/[^!]+)!`, returning the captured URL.  The optional
`s?` is greedy but the following `://` makes the choice deterministic. -/
def scanUrlCapture (t : List Char) : Option (List Char) :=
  let go (scheme : List Char) (rest : List Char) : Option (List Char) :=
    let run := rest.takeWhile (· ≠ '!')
    if run.isEmpty then none
    else if (rest.dropWhile (· ≠ '!')).head? = some '!' then
      some (scheme ++ run)
    else none
  match stripPrefixChars "https://".toList t with
  | some rest => go "https://".toList rest
  | none =>
    match stripPrefixChars "http://".toList t with
    | some rest => go "http://".toList rest
    | none => none

/-- A match of `!.*!(https?:\/\/[^!]+)!` anchored at the current search
position, which must hold a `!`: the greedy `.*` picks the largest
closing `!` whose continuation matches. -/
def urlMatchHere (l : List Char) : Option (List Char) :=
  if l.head? ≠ some '!' then none else
  (List.range l.length).foldl
    (fun acc m =>
      if 1 ≤ m ∧ l.getD m ' ' = '!' then
        match scanUrlCapture (l.drop (m + 1)) with
        | some u => some u
        | none => acc
      else acc)
    none

/-- The unanchored search `regexp.match(/!.*!(https?:\/\/[^!]+)!/)`:
the leftmost viable starting position wins. -/
def urlFromRegexpField : List Char → Option (List Char)
  | [] => none
  | c :: cs =>
    match urlMatchHere (c :: cs) with
    | some u => some u
    | none => urlFromRegexpField cs

/-- `String.prototype.includes`, on character lists: does `pat` occur as
a contiguous subsequence of `l`? -/
def containsSeq (pat : List Char) : List Char → Bool
  | [] => pat.isEmpty
  | x :: xs => pat.isPrefixOf (x :: xs) || containsSeq pat xs

/-- A `ServiceDescriptor` as `resolveOns` builds it:
`{ service: match[1], url: urlMatch[1] }`. -/
structure ServiceDescriptor where
  service : String
  url : String
  deriving DecidableEq

/-- One iteration of the `for (const record of data.Answer)` loop of
`resolveOns`: match the bare pattern, then extract the URL from the
captured regexp field; any failure skips the record. -/
def parseNaptrServiceDescriptor (recordData : String) : Option ServiceDescriptor :=
  match matchBareNaptr recordData.toList with
  | none => none
  | some fields =>
    match urlFromRegexpField fields.regexp with
    | none => none
    | some url => some ⟨String.mk fields.service, String.mk url⟩

/-- The full NAPTR-parsing loop of `resolveOns` over the DNS answer
records' `data` strings: records that match contribute one descriptor,
records that don't are skipped without error. -/
def resolveOnsNaptrServices (records : List String) : List ServiceDescriptor :=
  records.filterMap parseNaptrServiceDescriptor

/-- A service entry of the standalone script's `parseNaptrRecords`:
`{ service, url, order: parseInt(order), preference: parseInt(preference) }`. -/
structure ScriptServiceEntry where
  service : String
  url : String
  order : Nat
  preference : Nat
  deriving DecidableEq

/-- One iteration of `parseNaptrRecords` (gdso-ons-resolver script):
try the quoted-field pattern, fall back to the bare pattern, then
extract the URL; failures skip the record. -/
def parseNaptrRecordScript (recordData : String) : Option ScriptServiceEntry :=
  let m := match matchQuotedNaptr recordData.toList with
    | some fields => some fields
    | none => matchBareNaptr recordData.toList
  match m with
  | none => none
  | some fields =>
    match urlFromRegexpField fields.regexp with
    | none => none
    | some url =>
      some ⟨String.mk fields.service, String.mk url,
        natOfDigits fields.order, natOfDigits fields.preference⟩

/-- `parseNaptrRecords` over a whole answer list. -/
def parseNaptrRecords (records : List String) : List ScriptServiceEntry :=
  records.filterMap parseNaptrRecordScript

/-! ## Retry with exponential backoff (lib/utils.js `withRetry`)

The asynchronous operation is an oracle `fn : Nat → Except E A` giving
the outcome of each 1-based attempt.  The model returns the value or the
thrown `RetryExhaustedError` together with the number of times the
operation was invoked; the backoff delays and the `onRetry` callback
have no observable effect on the result and are not modelled. -/

/-- The `RetryExhaustedError(operationName, maxAttempts, lastError)`
thrown by `withRetry`. -/
structure RetryExhaustedE (E : Type) where
  operation : String
  attempts : Nat
  lastError : Option E
  deriving DecidableEq

/-- Outcome of `withRetry`, instrumented with the invocation count. -/
inductive RetryResult (E A : Type) where
  | ok (value : A) (invocations : Nat)
  | exhausted (ex : RetryExhaustedE E) (invocations : Nat)
  deriving DecidableEq

/-- The `for (let attempt = 1; attempt <= maxAttempts; attempt++)` loop.
`fuel` is the number of loop iterations still permitted
(`maxAttempts - attempt + 1`); it only drives termination, the `break`
condition is the literal `attempt >= maxAttempts || !shouldRetry(error)`. -/
def withRetryGo (fn : Nat → Except E A) (shouldRetry : E → Bool)
    (operationName : String) (maxAttempts : Nat) :
    Nat → Nat → Nat → Option E → RetryResult E A
  | 0, _, invoked, lastError =>
    .exhausted ⟨operationName, maxAttempts, lastError⟩ invoked
  | fuel + 1, attempt, invoked, _ =>
    match fn attempt with
    | .ok a => .ok a (invoked + 1)
    | .error e =>
      if maxAttempts ≤ attempt ∨ shouldRetry e = false then
        .exhausted ⟨operationName, maxAttempts, some e⟩ (invoked + 1)
      else
        withRetryGo fn shouldRetry operationName maxAttempts fuel
          (attempt + 1) (invoked + 1) (some e)

/-- `withRetry(fn, { maxAttempts, operationName, shouldRetry })`. -/
def withRetry (fn : Nat → Except E A) (shouldRetry : E → Bool)
    (operationName : String) (maxAttempts : Nat) : RetryResult E A :=
  withRetryGo fn shouldRetry operationName maxAttempts maxAttempts 1 0 none

/-- `defaultShouldRetry` (lib/utils.js): parse/credentials errors are
never retried; timeouts and low-level network errors are; otherwise an
HTTP status `≥ 500` or `429` in the error's details is retried. -/
def defaultShouldRetry : GdsoErr → Bool
  | .sgtinParse _ => false
  | .credentialsMissing _ => false
  | .timeout _ => true
  | .netCode c => c = "ECONNRESET" || c = "ENOTFOUND" || c = "ETIMEDOUT"
  | .dnsResolution _ (some s) => decide (500 ≤ s) || decide (s = 429)
  | .authentication _ (some s) => decide (500 ≤ s) || decide (s = 429)
  | _ => false

/-- `RETRY.maxAttempts` (lib/config.js). -/
def retryMaxAttempts : Nat := 3

/-! ## LRU cache with TTL (lib/utils.js `LRUCache`)

A JavaScript `Map` is an insertion-ordered association list with unique
keys; the head is the oldest (least recently used) entry. -/

/-- `{value, expiry}` as stored in the cache `Map`. -/
structure CacheEntry (V : Type) where
  value : V
  expiry : Int
  deriving DecidableEq

/-- The cache object: `maxSize`, `ttlMs`, and the backing `Map`. -/
structure LRU (K V : Type) where
  maxSize : Nat
  ttlMs : Int
  cache : List (K × CacheEntry V)
  deriving DecidableEq

variable {K V : Type} [DecidableEq K]

/-- `Map.prototype.get`. -/
def mapGet (k : K) (l : List (K × CacheEntry V)) : Option (CacheEntry V) :=
  (l.find? fun p => p.1 = k).map (·.2)

/-- `Map.prototype.delete` (keys are unique, so removing every binding
of `k` equals removing the one binding). -/
def mapDelete (k : K) (l : List (K × CacheEntry V)) : List (K × CacheEntry V) :=
  l.filter fun p => p.1 ≠ k

/-- `LRUCache.get(key)`: miss on absent key; an entry past its TTL is
deleted and reported absent; a live entry is re-inserted at the end of
the `Map` (most-recently-used) and its value returned. -/
def lruGet (now : Int) (k : K) (st : LRU K V) : Option V × LRU K V :=
  match mapGet k st.cache with
  | none => (none, st)
  | some e =>
    if now > e.expiry then
      (none, { st with cache := mapDelete k st.cache })
    else
      (some e.value, { st with cache := mapDelete k st.cache ++ [(k, e)] })

/-- The `while (this.cache.size >= this.maxSize)` eviction loop of
`LRUCache.set`, deleting the first (least recently used) key each
round.  (With `maxSize = 0` the JavaScript loop would never terminate;
the constructor's `options.maxSize || 100` makes that unreachable.) -/
def evictLoop (maxSize : Nat) : List (K × CacheEntry V) → List (K × CacheEntry V)
  | [] => []
  | x :: xs =>
    if maxSize ≤ (x :: xs).length then evictLoop maxSize xs else x :: xs

/-- `LRUCache.set(key, value, ttlMs = this.ttlMs)` (the service always
uses the default TTL): delete the key, evict while at capacity, insert
at the end with `expiry = Date.now() + ttlMs`. -/
def lruSet (now : Int) (k : K) (v : V) (st : LRU K V) : LRU K V :=
  let c1 := mapDelete k st.cache
  let c2 := evictLoop st.maxSize c1
  { st with cache := c2 ++ [(k, ⟨v, now + st.ttlMs⟩)] }

/-! ## Manufacturer configuration (lib/manufacturers.js)

Every table entry sets `headers: {}` and `transformResponse: null`, so
those two fields are omitted from the model (`callManufacturerApi`
would apply a transform only when one is configured). -/

structure Manufacturer where
  name : String
  country : Option String := none
  urlPattern : Option String := none
  urlPatterns : Option (List String) := none
  encodeSgtin : Bool := true
  deriving DecidableEq

/-- The `MANUFACTURERS` table, keyed by company prefix. -/
def MANUFACTURERS : List (String × Manufacturer) :=
  [ ("086699", ⟨"Michelin", some "FR", some "{baseUrl}/tire/{sgtin}", none, true⟩),
    ("051324", ⟨"Continental", some "DE", some "{baseUrl}/{sgtin}", none, true⟩),
    ("051342", ⟨"Continental", some "US", some "{baseUrl}/{sgtin}", none, true⟩),
    ("4019238", ⟨"Continental", some "DE", some "{baseUrl}/{sgtin}", none, true⟩),
    ("8019227", ⟨"Pirelli", some "IT", some "{baseUrl}/{sgtin}", none, true⟩),
    ("697662", ⟨"Goodyear", some "US", some "{baseUrl}/tire/{sgtin}", none, true⟩),
    ("019502", ⟨"Goodyear", some "US", some "{baseUrl}/tire/{sgtin}", none, true⟩),
    ("019343", ⟨"Bridgestone", some "JP", some "{baseUrl}/tire/{sgtin}", none, true⟩),
    ("4902027", ⟨"Bridgestone", some "JP", some "{baseUrl}/tire/{sgtin}", none, true⟩),
    ("8801954", ⟨"Hankook", some "KR", some "{baseUrl}/{sgtin}", none, true⟩),
    ("8801956", ⟨"Kumho", some "KR", some "{baseUrl}/{sgtin}", none, true⟩),
    ("4907587", ⟨"Yokohama", some "JP", some "{baseUrl}/tire/{sgtin}", none, true⟩),
    ("4981910", ⟨"Sumitomo (Falken/Dunlop)", some "JP", some "{baseUrl}/tire/{sgtin}", none, true⟩),
    ("4571271", ⟨"Toyo Tires", some "JP", some "{baseUrl}/tire/{sgtin}", none, true⟩),
    ("8807622", ⟨"Nexen", some "KR", some "{baseUrl}/{sgtin}", none, true⟩),
    ("6924064", ⟨"Giti", some "SG", some "{baseUrl}/{sgtin}", none, true⟩),
    ("8019205", ⟨"Prometeon", some "IT", some "{baseUrl}/{sgtin}", none, true⟩) ]

/-- `DEFAULT_MANUFACTURER`, used (with a tailored name) for unknown
prefixes: several URL patterns are tried. -/
def DEFAULT_MANUFACTURER : Manufacturer :=
  ⟨"Unknown", none, none,
    some ["{baseUrl}/{sgtin}", "{baseUrl}/tire/{sgtin}", "{baseUrl}/tyre/{sgtin}"],
    true⟩

/-- `getManufacturerConfig(companyPrefix)`. -/
def getManufacturerConfig (companyPrefix : String) : Manufacturer :=
  match (MANUFACTURERS.find? fun p => p.1 = companyPrefix).map (·.2) with
  | some m => m
  | none => { DEFAULT_MANUFACTURER with
                name := "Unknown (" ++ companyPrefix ++ ")" }

/-- `baseUrl.endsWith('/') ? baseUrl.slice(0, -1) : baseUrl`. -/
def normalizeBaseUrl (baseUrl : String) : String :=
  if baseUrl.toList.getLast? = some '/' then
    String.mk (baseUrl.toList.dropLast)
  else baseUrl

/-- `buildApiUrl(baseUrl, sgtin, manufacturerConfig)`: substitute the
normalized base URL and the (possibly percent-encoded) identifier into
the single pattern (`urlPattern || urlPatterns?.[0]`; the table
guarantees one of the two is present). -/
def buildApiUrl (baseUrl sgtin : String) (m : Manufacturer) : String :=
  let pattern := match m.urlPattern with
    | some p => p
    | none => ((m.urlPatterns.getD []).headD "")
  let encodedSgtin := if m.encodeSgtin then encodeURIComponent sgtin else sgtin
  replaceFirst (replaceFirst pattern "{baseUrl}" (normalizeBaseUrl baseUrl))
    "{sgtin}" encodedSgtin

/-- `buildAllPossibleUrls(baseUrl, sgtin, manufacturerConfig)`: for each
pattern, the encoded then the raw substitution, deduplicated as a
`Set`. -/
def buildAllPossibleUrls (baseUrl sgtin : String) (m : Manufacturer) : List String :=
  let patterns := match m.urlPatterns with
    | some ps => ps
    | none => [m.urlPattern.getD ""]
  let base := normalizeBaseUrl baseUrl
  jsSetDedup <| patterns.flatMap fun p =>
    [ replaceFirst (replaceFirst p "{baseUrl}" base) "{sgtin}"
        (encodeURIComponent sgtin),
      replaceFirst (replaceFirst p "{baseUrl}" base) "{sgtin}" sgtin ]

/-- The candidate URL list `callManufacturerApi` iterates over: all
pattern variants when the profile has `urlPatterns`, otherwise the
configured encoding variant followed by the opposite one, deduplicated. -/
def candidateUrls (apiUrl sgtin : String) (m : Manufacturer) : List String :=
  match m.urlPatterns with
  | some _ => buildAllPossibleUrls apiUrl sgtin m
  | none =>
    jsSetDedup
      [ buildApiUrl apiUrl sgtin m,
        buildApiUrl apiUrl sgtin { m with encodeSgtin := !m.encodeSgtin } ]

/-! ## The GDSO service (lib/gdso-service.js)

State of a `GdsoService` instance, with the network collaborators as
oracles.  The manufacturer API payload is opaque (`TireData`). -/

/-- Opaque manufacturer-API payload (the parsed JSON body). -/
def TireData := String

instance : DecidableEq TireData := fun a b => String.decEq a b

/-- A DNS-over-HTTPS answer record (only `data` is consumed). -/
structure DnsAnswer where
  data : String
  deriving DecidableEq

/-- The DNS-over-HTTPS JSON envelope. -/
structure DnsJson where
  Status : Int
  Answer : List DnsAnswer
  deriving DecidableEq

/-- Outcome of one `fetch`: an HTTP response with a status and an
already-parsed body, or a network-level failure (timeout abort,
connection error, ...) thrown as `e`. -/
inductive FetchOutcome (β : Type) where
  | resp (status : Nat) (body : β)
  | fail (e : GdsoErr)
  deriving DecidableEq

/-- `response.ok`: status in the inclusive range 200–299. -/
def httpOk (status : Nat) : Bool := 200 ≤ status && status < 300

/-- The fields of `OnsResult` that are cached (everything except
`parsed`, which is specific to each identifier). -/
structure OnsCacheData where
  gtin13 : String
  fqdn : String
  manufacturer : Manufacturer
  apiUrl : String
  services : List ServiceDescriptor
  deriving DecidableEq

/-- The full `OnsResult`. -/
structure OnsResult where
  parsed : ParsedSgtin
  gtin13 : String
  fqdn : String
  manufacturer : Manufacturer
  apiUrl : String
  services : List ServiceDescriptor
  deriving DecidableEq

/-- `const { parsed: _, ...cacheData } = result`. -/
def toCacheData (r : OnsResult) : OnsCacheData :=
  ⟨r.gtin13, r.fqdn, r.manufacturer, r.apiUrl, r.services⟩

/-- `{ ...cached, parsed }`. -/
def ofCacheData (d : OnsCacheData) (p : ParsedSgtin) : OnsResult :=
  ⟨p, d.gtin13, d.fqdn, d.manufacturer, d.apiUrl, d.services⟩

/-- Mutable state of a `GdsoService` instance: configuration, the ONS
cache, and the token slot. -/
structure SvcState where
  useCache : Bool
  onsSuffix : String
  onsCache : LRU String OnsCacheData
  token : Option String
  tokenExpiry : Option Int
  username : String
  password : String
  deriving DecidableEq

/-- The body retried for the DNS query: `fetch`, the `response.ok`
check throwing `DnsResolutionError`, and JSON decoding of the
envelope. -/
def dnsOp (dns : Nat → FetchOutcome DnsJson) (fqdn : String) (attempt : Nat) :
    Except GdsoErr DnsJson :=
  match dns attempt with
  | .resp status j =>
    if httpOk status then .ok j
    else .error (.dnsResolution fqdn (some status))
  | .fail e => .error e

/-- `resolveOns(sgtinUrn)`: parse, derive the GTIN-13, consult the
cache, and on a miss resolve NAPTR records over DNS (with retry), pick
the `GetTireBySgtin` service and fill the cache.  Returns the outcome,
the updated state, and how many times the DNS fetch ran. -/
def resolveOns (dns : Nat → FetchOutcome DnsJson) (now : Int) (st : SvcState)
    (inp : SgtinInput) : Except GdsoErr OnsResult × SvcState × Nat :=
  match parseSgtin inp with
  | .error e => (.error e, st, 0)
  | .ok parsed =>
    let gtin13 := sgtinToGtin13 parsed
    let hit := if st.useCache then lruGet now gtin13 st.onsCache
      else (none, st.onsCache)
    match hit with
    | (some cached, cache1) =>
      (.ok (ofCacheData cached parsed), { st with onsCache := cache1 }, 0)
    | (none, cache1) =>
      let st1 := { st with onsCache := cache1 }
      let fqdn := gtinToFqdn st.onsSuffix gtin13
      let manufacturer := getManufacturerConfig parsed.companyPrefix
      match withRetry (dnsOp dns fqdn) defaultShouldRetry
          ("DNS resolution " ++ fqdn) retryMaxAttempts with
      | .exhausted ex inv =>
        (.error (.retryExhausted ex.operation ex.attempts), st1, inv)
      | .ok dnsData inv =>
        if dnsData.Status ≠ 0 ∨ dnsData.Answer = [] then
          (.error (.naptrNotFound fqdn gtin13), st1, inv)
        else
          let services := resolveOnsNaptrServices (dnsData.Answer.map (·.data))
          match services.find? fun s =>
              containsSeq "GetTireBySgtin".toList s.service.toList with
          | none => (.error (.naptrNotFound fqdn gtin13), st1, inv)
          | some apiService =>
            let result : OnsResult :=
              ⟨parsed, gtin13, fqdn, manufacturer, apiService.url, services⟩
            let st2 := if st.useCache then
                { st1 with onsCache := lruSet now gtin13 (toCacheData result) st1.onsCache }
              else st1
            (.ok result, st2, inv)

/-- The JSON object a token-endpoint response may decode to, restricted
to the fields the code reads. -/
structure TokenJson where
  AccessToken : Option String := none
  access_token : Option String := none
  IdToken : Option String := none
  expires_in : Option Int := none
  deriving DecidableEq

/-- `a || b` on possibly-absent strings (`""` is falsy). -/
def jsOrStr (a b : Option String) : Option String :=
  match a with
  | some s => if s = "" then b else some s
  | none => b

/-- `data.expires_in || 3600`. -/
def jsOrInt (a : Option Int) (dflt : Int) : Int :=
  match a with
  | some n => if n = 0 then dflt else n
  | none => dflt

/-- The body retried for authentication: POST, and the `res.ok` check
throwing `AuthenticationError(text.substring(0,100), status, env)`
(the environment tag of the error is not modelled).  On success the
loop yields the response, read as text afterwards. -/
def authOp (auth : Nat → FetchOutcome String) (attempt : Nat) :
    Except GdsoErr String :=
  match auth attempt with
  | .resp status body =>
    if httpOk status then .ok body
    else .error (.authentication (String.mk (body.toList.take 100)) (some status))
  | .fail e => .error e

/-- `authenticate()`.  `auth` is the token-endpoint fetch oracle,
`jwtExp` decodes a JWT's middle segment to its numeric `exp` claim
(`none` = the decode threw, giving the 1-hour default), `jsonTok`
is `JSON.parse` on a non-JWT body (`none` = `SyntaxError`). -/
def authenticate (auth : Nat → FetchOutcome String)
    (jwtExp : String → Option Int) (jsonTok : String → Option TokenJson)
    (env : String) (now : Int) (st : SvcState) :
    Except GdsoErr (String × SvcState) :=
  match st.token, st.tokenExpiry with
  | some tok, some exp =>
    if tok ≠ "" ∧ exp ≠ 0 ∧ now < exp - 60000 then .ok (tok, st)
    else authenticateFresh auth jwtExp jsonTok env now st
  | _, _ => authenticateFresh auth jwtExp jsonTok env now st
where
  /-- The part after the cached-token fast path. -/
  authenticateFresh (auth : Nat → FetchOutcome String)
      (jwtExp : String → Option Int) (jsonTok : String → Option TokenJson)
      (env : String) (now : Int) (st : SvcState) :
      Except GdsoErr (String × SvcState) :=
    if st.username = "" ∨ st.password = "" then
      .error (.credentialsMissing env)
    else
      match withRetry (authOp auth) defaultShouldRetry "Authentication"
          retryMaxAttempts with
      | .exhausted ex _ => .error (.retryExhausted ex.operation ex.attempts)
      | .ok tokenText _ =>
        if strStartsWith tokenText "eyJ" then
          let tok := jsTrim tokenText
          let expiry :=
            match (splitOnChar '.' tok.toList).get? 1 with
            | some seg =>
              match jwtExp (String.mk seg) with
              | some e => e * 1000
              | none => now + 3600000
            | none => now + 3600000
          .ok (tok, { st with token := some tok, tokenExpiry := some expiry })
        else
          match jsonTok tokenText with
          | none => .error .jsonSyntax
          | some data =>
            match jsOrStr data.AccessToken
                (jsOrStr data.access_token data.IdToken) with
            | none => .error (.authentication "Pas de token dans la réponse" none)
            | some tok =>
              if tok = "" then
                .error (.authentication "Pas de token dans la réponse" none)
              else
                let expiry := now + jsOrInt data.expires_in 3600 * 1000
                .ok (tok,
                  { st with token := some tok, tokenExpiry := some expiry })

/-- The `for (const url of urls)` loop of `callManufacturerApi`: a 2xx
response with a decodable body returns it; a 404, any other non-2xx
status, a network error, or a body that fails to decode all fall
through to the next candidate; an exhausted list yields `null`. -/
def tryUrls (http : String → FetchOutcome (Option TireData)) :
    List String → Option TireData
  | [] => none
  | url :: rest =>
    match http url with
    | .resp status (some data) =>
      if httpOk status then some data else tryUrls http rest
    | .resp _ none => tryUrls http rest
    | .fail _ => tryUrls http rest

/-- `callManufacturerApi(apiUrl, sgtin, manufacturer)`: authenticate,
build the candidate URLs, try them in order.  (Every configured profile
has `transformResponse: null`, so no transform is applied.) -/
def callManufacturerApi (auth : Nat → FetchOutcome String)
    (jwtExp : String → Option Int) (jsonTok : String → Option TokenJson)
    (http : String → FetchOutcome (Option TireData)) (env : String)
    (now : Int) (st : SvcState) (apiUrl sgtin : String) (m : Manufacturer) :
    Except GdsoErr (Option TireData × SvcState) :=
  match authenticate auth jwtExp jsonTok env now st with
  | .error e => .error e
  | .ok (_, st1) => .ok (tryUrls http (candidateUrls apiUrl sgtin m), st1)

/-- `TireResult`. -/
structure TireResult where
  sgtin : String
  manufacturer : String
  gtin13 : String
  apiUrl : String
  data : Option TireData
  deriving DecidableEq

/-- `getTireInfo(sgtinUrn)`: ONS resolution, then the manufacturer API
call (authentication implied), packaging the outcome. -/
def getTireInfo (dns : Nat → FetchOutcome DnsJson)
    (auth : Nat → FetchOutcome String) (jwtExp : String → Option Int)
    (jsonTok : String → Option TokenJson)
    (http : String → FetchOutcome (Option TireData)) (env : String)
    (now : Int) (st : SvcState) (sgtinUrn : String) :
    Except GdsoErr (TireResult × SvcState) :=
  match resolveOns dns now st (.str sgtinUrn) with
  | (.error e, _, _) => .error e
  | (.ok ons, st1, _) =>
    match callManufacturerApi auth jwtExp jsonTok http env now st1
        ons.apiUrl sgtinUrn ons.manufacturer with
    | .error e => .error e
    | .ok (tireData, st2) =>
      .ok (⟨sgtinUrn, ons.manufacturer.name, ons.gtin13, ons.apiUrl, tireData⟩, st2)

/-! ## Concrete fixtures used by the theorems below -/

/-- The Michelin test identifier of the spec's §8. -/
def sgtinMichelin : String := "urn:epc:id:sgtin:086699.0988229.72916502389"

/-- Its parse result. -/
def parsedMichelin : ParsedSgtin :=
  ⟨"086699", "0988229", "72916502389", sgtinMichelin⟩

/-- A NAPTR record in the bare-token textual encoding. -/
def bareNaptrRecordData : String :=
  "10 10 u E2U+http:GetTireBySgtin !^.*$!https://api.example.com/v1! ."

/-- The same record in the quoted-field textual encoding. -/
def quotedNaptrRecordData : String :=
  "10 10 \"u\" \"E2U+http:GetTireBySgtin\" \"!^.*$!https://api.example.com/v1!\" ."

/-- A record matching neither form. -/
def junkNaptrRecordData : String := "not a naptr record"

/-- The service descriptor both well-formed records above denote. -/
def tireServiceDescriptor : ServiceDescriptor :=
  ⟨"E2U+http:GetTireBySgtin", "https://api.example.com/v1"⟩

/-- A DNS oracle answering every attempt with one bare-form NAPTR
record. -/
def dnsOracleOk : Nat → FetchOutcome DnsJson :=
  fun _ => .resp 200 ⟨0, [⟨bareNaptrRecordData⟩]⟩

/-- A freshly constructed service instance holding a valid cached
token. -/
def svcStateInit : SvcState :=
  ⟨true, "gtin.gs1.id.testing.gdso.org", ⟨500, 3600000, []⟩,
    some "cached-token", some 99999999, "user", "pass"⟩

/-- A service instance with no token yet. -/
def svcStateNoToken : SvcState :=
  ⟨true, "gtin.gs1.id.testing.gdso.org", ⟨500, 3600000, []⟩,
    none, none, "user", "pass"⟩

/-- Does this manufacturer-API fetch outcome make `callManufacturerApi`
fall through to the next candidate URL?  (Any non-2xx status — 404
included —, any network error, and a 2xx whose body fails to decode.) -/
def httpFails : FetchOutcome (Option TireData) → Bool
  | .resp status (some _) => !httpOk status
  | .resp _ none => true
  | .fail _ => true

/-- An empty three-slot cache (mirroring the repository's LRU tests). -/
def c6Cache0 : LRU Nat Nat := ⟨3, 1000, []⟩

/-- Keys 1, 2, 3 inserted in that order (1 is least recently used). -/
def c6CacheABC : LRU Nat Nat :=
  lruSet 0 3 30 (lruSet 0 2 20 (lruSet 0 1 10 c6Cache0))

/-- The same cache after `get(1)` refreshed key 1's recency. -/
def c6AfterGetA : LRU Nat Nat := (lruGet 0 1 c6CacheABC).2

/-- Inserting key 4 after the refresh — key 2 is now the LRU victim. -/
def c6AfterSetD : LRU Nat Nat := lruSet 0 4 40 c6AfterGetA

/-- A 50 ms-TTL cache holding key 1 (expires at t = 50). -/
def c6TtlCache : LRU Nat Nat := lruSet 0 1 10 (⟨3, 50, []⟩ : LRU Nat Nat)

/-- Key 2 inserted at t = 100: `set` never purges the expired key 1. -/
def c6TtlAfterSet : LRU Nat Nat := lruSet 100 2 20 c6TtlCache

/-! # Theorems -/

/-! ## C1: SGTIN → GTIN-13 round trip -/

/-- C1.  Parsing `urn:epc:id:sgtin:086699.0988229.72916502389` and
converting with `sgtinToGtin13` yields exactly `"0866999882290"`: a
13-character string containing `"086699"`, obtained by appending the
check digit to indicator + companyPrefix + itemRef and dropping the
leading character of the resulting 14-digit string. -/
theorem c1_sgtin_gtin13_roundtrip :
    (parseSgtin (.str sgtinMichelin)).map sgtinToGtin13 = .ok "0866999882290" ∧
    parseSgtin (.str sgtinMichelin) = .ok parsedMichelin ∧
    "0866999882290".length = 13 ∧
    containsSeq "086699".toList "0866999882290".toList = true ∧
    sgtinToGtin13 parsedMichelin =
      String.mk
        (("0086699988229" ++ toString (calculateCheckDigit "0086699988229")).toList.drop 1) := by
  refine ⟨by rfl, by rfl, by rfl, by rfl, by rfl⟩

/-! ## C2: the GS1 check digit -/

theorem foldl_add_map_sum {α : Type} (f : α → Nat) :
    ∀ (l : List α) (a : Nat),
      l.foldl (fun acc x => acc + f x) a = a + (l.map f).sum
  | [], a => by simp
  | x :: xs, a => by
    have ih := foldl_add_map_sum f xs (a + f x)
    simp only [List.foldl_cons, List.map_cons, List.sum_cons, ih]
    omega

theorem enumFrom_weighted_sum (f : Nat → Char → Nat) (d : Char) :
    ∀ (l : List Char) (k : Nat),
      ((l.enumFrom k).map fun p => f p.1 p.2).sum =
        ∑ i ∈ Finset.range l.length, f (k + i) (l.getD i d)
  | [], k => by simp
  | c :: cs, k => by
    have ih := enumFrom_weighted_sum f d cs (k + 1)
    simp only [List.enumFrom, List.map_cons, List.sum_cons, List.length_cons]
    rw [Finset.sum_range_succ', ih]
    simp only [List.getD_cons_succ, List.getD_cons_zero, Nat.add_zero]
    rw [Nat.add_comm]
    congr 1
    refine Finset.sum_congr rfl fun i _ => ?_
    congr 1
    omega

/-- The loop of `calculateCheckDigit` computes the claim's weighted
sum. -/
theorem calculateCheckDigit_eq_claim_formula (digits : String) :
    calculateCheckDigit digits = (10 - claimWeightedSum digits % 10) % 10 := by
  have h1 := foldl_add_map_sum
    (fun p : Nat × Char => digitVal p.2 * checkDigitWeight digits.toList.length p.1)
    digits.toList.enum 0
  have h2 := enumFrom_weighted_sum
    (fun i c => digitVal c * checkDigitWeight digits.toList.length i)
    (Char.ofNat 48) digits.toList 0
  simp only [Nat.zero_add] at h1 h2
  show (10 - (List.foldl
      (fun acc p => acc + digitVal p.2 * checkDigitWeight digits.toList.length p.1)
      0 digits.toList.enum) % 10) % 10 = (10 - claimWeightedSum digits % 10) % 10
  rw [h1, show digits.toList.enum = digits.toList.enumFrom 0 from rfl, h2]
  rfl

/-- C2 counterexample.  On the one-digit string `"1"` the code's check
digit is 7 (the rightmost digit is weighted by 3), while the claim's
"rightmost digit always has weight 1" reading would give 9: the claim
as stated is false. -/
theorem c2_check_digit_counterexample :
    calculateCheckDigit "1" = 7 ∧ checkDigitRightmostOne "1" = 9 ∧
    checkDigitWeight "1".length ("1".length - 1) = 3 := by
  refine ⟨by rfl, ?_, by rfl⟩
  simp [checkDigitRightmostOne, Finset.sum_range_succ]
  rfl

/-- C2 (amended).  `calculateCheckDigit` returns
`(10 - (sum mod 10)) mod 10`, where `sum` weights the digit at index
`i` by 1 if `(length - i)` is even and 3 otherwise — so the rightmost
digit always has weight **3** (not 1); in particular it returns 0 for
`"0086699988229"` and 3 for `"629104150021"`. -/
theorem c2_check_digit_amended :
    (∀ digits : String,
        calculateCheckDigit digits = (10 - claimWeightedSum digits % 10) % 10) ∧
    (∀ digits : String, 1 ≤ digits.length →
        checkDigitWeight digits.length (digits.length - 1) = 3) ∧
    calculateCheckDigit "0086699988229" = 0 ∧
    calculateCheckDigit "629104150021" = 3 := by
  refine ⟨calculateCheckDigit_eq_claim_formula, ?_, by rfl, by rfl⟩
  intro digits h
  unfold checkDigitWeight
  rw [show digits.length - (digits.length - 1) = 1 by omega]
  rfl

/-- Witness for C2 (amended) at the concrete string `"629104150021"`. -/
theorem c2_check_digit_amended_witness :
    (calculateCheckDigit "629104150021" =
        (10 - claimWeightedSum "629104150021" % 10) % 10) ∧
    (1 ≤ "629104150021".length ∧
      checkDigitWeight "629104150021".length ("629104150021".length - 1) = 3) :=
  ⟨c2_check_digit_amended.1 "629104150021",
    by decide, c2_check_digit_amended.2.1 "629104150021" (by decide)⟩

/-! ## C3: NAPTR parsing in endpoint resolution -/

/-- C3 counterexample.  A record in the quoted-field form — accepted by
the standalone script's `parseNaptrRecords` — produces **no**
`ServiceDescriptor` in the NAPTR parsing `resolveOns` performs: the
parsing used by endpoint resolution does not accept both textual
encodings. -/
theorem c3_naptr_counterexample :
    resolveOnsNaptrServices [quotedNaptrRecordData] = [] ∧
    parseNaptrRecordScript quotedNaptrRecordData =
      some ⟨"E2U+http:GetTireBySgtin", "https://api.example.com/v1", 10, 10⟩ := by
  refine ⟨by rfl, by rfl⟩

/-- C3 (amended).  The NAPTR parsing used by endpoint resolution
(`resolveOns`) accepts only the bare-token form
`order preference flags service !regexp! replacement`, producing one
`ServiceDescriptor` with the URL extracted from the `!...!url!` regexp
field per matching record; records matching the quoted-field form, or
neither form, are silently skipped (not errors).  The standalone ONS
script's `parseNaptrRecords` accepts both forms. -/
theorem c3_naptr_amended :
    parseNaptrServiceDescriptor bareNaptrRecordData = some tireServiceDescriptor ∧
    parseNaptrServiceDescriptor quotedNaptrRecordData = none ∧
    parseNaptrServiceDescriptor junkNaptrRecordData = none ∧
    resolveOnsNaptrServices
        [bareNaptrRecordData, quotedNaptrRecordData, junkNaptrRecordData] =
      [tireServiceDescriptor] ∧
    (∀ (records : List String) (r : String),
        parseNaptrServiceDescriptor r = none →
        resolveOnsNaptrServices (records ++ [r]) =
          resolveOnsNaptrServices records) ∧
    parseNaptrRecordScript bareNaptrRecordData =
      some ⟨"E2U+http:GetTireBySgtin", "https://api.example.com/v1", 10, 10⟩ ∧
    parseNaptrRecordScript quotedNaptrRecordData =
      some ⟨"E2U+http:GetTireBySgtin", "https://api.example.com/v1", 10, 10⟩ ∧
    parseNaptrRecordScript junkNaptrRecordData = none := by
  refine ⟨by rfl, by rfl, by rfl, by rfl, ?_, by rfl, by rfl, by rfl⟩
  intro records r h
  simp [resolveOnsNaptrServices, List.filterMap_append, h]

/-- Witness for C3 (amended): appending the junk record changes
nothing. -/
theorem c3_naptr_amended_witness :
    parseNaptrServiceDescriptor junkNaptrRecordData = none ∧
    resolveOnsNaptrServices ([bareNaptrRecordData] ++ [junkNaptrRecordData]) =
      resolveOnsNaptrServices [bareNaptrRecordData] :=
  ⟨by rfl,
    c3_naptr_amended.2.2.2.2.1 [bareNaptrRecordData] junkNaptrRecordData (by rfl)⟩

/-! ## C4: retry invocation counts -/

/-- C4.  For every operation and retry policy: a first-attempt success
returns its value after exactly one invocation; failing twice then
succeeding under a 3-attempt policy invokes exactly 3 times and returns
the success value; always failing with retryable errors under 3
attempts invokes exactly 3 times and raises `RetryExhausted`; a first
error classified non-retryable stops after exactly one invocation
regardless of `maxAttempts`. -/
theorem c4_retry_invocation_counts :
    (∀ (E A : Type) (fn : Nat → Except E A) (sr : E → Bool) (op : String)
        (n : Nat) (a : A), fn 1 = .ok a → 1 ≤ n →
        withRetry fn sr op n = .ok a 1) ∧
    (∀ (E A : Type) (fn : Nat → Except E A) (sr : E → Bool) (op : String)
        (e₁ e₂ : E) (a : A),
        fn 1 = .error e₁ → fn 2 = .error e₂ → fn 3 = .ok a →
        sr e₁ = true → sr e₂ = true →
        withRetry fn sr op 3 = .ok a 3) ∧
    (∀ (E A : Type) (fn : Nat → Except E A) (sr : E → Bool) (op : String)
        (e : Nat → E),
        (∀ i, fn i = .error (e i)) → (∀ x, sr x = true) →
        withRetry fn sr op 3 = .exhausted ⟨op, 3, some (e 3)⟩ 3) ∧
    (∀ (E A : Type) (fn : Nat → Except E A) (sr : E → Bool) (op : String)
        (n : Nat) (e : E), fn 1 = .error e → sr e = false → 1 ≤ n →
        withRetry fn sr op n = .exhausted ⟨op, n, some e⟩ 1) := by
  refine ⟨?_, ?_, ?_, ?_⟩
  · intro E A fn sr op n a h hn
    match n, hn with
    | m + 1, _ => simp [withRetry, withRetryGo, h]
  · intro E A fn sr op e₁ e₂ a h1 h2 h3 hs1 hs2
    simp [withRetry, withRetryGo, h1, h2, h3, hs1, hs2]
  · intro E A fn sr op e hf hs
    simp [withRetry, withRetryGo, hf 1, hf 2, hf 3, hs (e 1), hs (e 2), hs (e 3)]
  · intro E A fn sr op n e h hs hn
    match n, hn with
    | m + 1, _ => simp [withRetry, withRetryGo, h, hs]

/-- Witness for C4: each scenario at a concrete operation. -/
theorem c4_retry_invocation_counts_witness :
    withRetry (E := String) (fun _ => .ok 5) (fun _ => true) "w" 3 = .ok 5 1 ∧
    withRetry (E := String) (fun i => if i ≤ 2 then .error "e" else .ok 7)
      (fun _ => true) "w" 3 = .ok 7 3 ∧
    withRetry (A := Nat) (fun i => .error (toString i)) (fun _ => true) "w" 3 =
      .exhausted ⟨"w", 3, some "3"⟩ 3 ∧
    withRetry (A := Nat) (fun _ => .error "fatal") (fun _ => false) "w" 5 =
      .exhausted ⟨"w", 5, some "fatal"⟩ 1 :=
  ⟨c4_retry_invocation_counts.1 String Nat _ _ "w" 3 5 rfl (by decide),
    c4_retry_invocation_counts.2.1 String Nat _ _ "w" "e" "e" 7 rfl rfl rfl rfl rfl,
    c4_retry_invocation_counts.2.2.1 String Nat _ _ "w" (fun i => toString i)
      (fun _ => rfl) (fun _ => rfl),
    c4_retry_invocation_counts.2.2.2 String Nat _ _ "w" 5 "fatal" rfl rfl (by decide)⟩

/-! ## C5: what `RetryExhausted` carries -/

/-- C5 counterexample.  An operation whose very first error is
non-retryable, under `maxAttempts = 3`, is invoked once, yet the raised
`RetryExhaustedError` reports `attempts = 3` — not the number of
attempts actually performed. -/
theorem c5_retry_exhausted_counterexample :
    withRetry (E := String) (A := Nat) (fun _ => .error "boom") (fun _ => false)
      "op" 3 = .exhausted ⟨"op", 3, some "boom"⟩ 1 ∧ (3 : Nat) ≠ 1 := by
  refine ⟨by rfl, by decide⟩

/-- Invariant of the retry loop: whenever it ends exhausted, the raised
error carries the operation name, the **configured** `maxAttempts`, and
the error of the last invocation performed.  (`attempt` is always
`invoked + 1`, and `lastErr` records the error of invocation number
`invoked` when there was one.) -/
theorem withRetryGo_exhausted_spec {E A : Type} (fn : Nat → Except E A)
    (sr : E → Bool) (op : String) (n : Nat) :
    ∀ (fuel invoked : Nat) (lastErr : Option E) (ex : RetryExhaustedE E)
      (inv : Nat),
      withRetryGo fn sr op n fuel (invoked + 1) invoked lastErr =
        .exhausted ex inv →
      (1 ≤ invoked → ∃ e₀, fn invoked = .error e₀ ∧ lastErr = some e₀) →
      ex.operation = op ∧ ex.attempts = n ∧ invoked ≤ inv ∧
        (1 ≤ fuel → invoked + 1 ≤ inv) ∧
        (1 ≤ inv → ∃ e, fn inv = .error e ∧ ex.lastError = some e) := by
  intro fuel
  induction fuel with
  | zero =>
    intro invoked lastErr ex inv h hlast
    simp only [withRetryGo] at h
    obtain ⟨hex, hinv⟩ : (⟨op, n, lastErr⟩ : RetryExhaustedE E) = ex ∧ invoked = inv := by
      cases h; exact ⟨rfl, rfl⟩
    subst hex hinv
    refine ⟨rfl, rfl, Nat.le_refl _, by omega, ?_⟩
    intro hi
    obtain ⟨e₀, he₀, hl⟩ := hlast hi
    exact ⟨e₀, he₀, hl⟩
  | succ fuel ih =>
    intro invoked lastErr ex inv h hlast
    simp only [withRetryGo] at h
    cases hfn : fn (invoked + 1) with
    | ok a => simp only [hfn] at h; cases h
    | error e =>
      simp only [hfn] at h
      by_cases hc : n ≤ invoked + 1 ∨ sr e = false
      · rw [if_pos hc] at h
        obtain ⟨hex, hinv⟩ :
            (⟨op, n, some e⟩ : RetryExhaustedE E) = ex ∧ invoked + 1 = inv := by
          cases h; exact ⟨rfl, rfl⟩
        subst hex hinv
        exact ⟨rfl, rfl, by omega, by omega, fun _ => ⟨e, hfn, rfl⟩⟩
      · rw [if_neg hc] at h
        have := ih (invoked + 1) (some e) ex inv h
          (fun _ => ⟨e, hfn, rfl⟩)
        have h3 := this.2.2.1
        exact ⟨this.1, this.2.1, by omega, fun _ => h3, this.2.2.2.2⟩

/-- C5 (amended).  Whenever the retry wrapper stops on failure, it
raises `RetryExhausted` wrapping the error of the last attempt actually
performed and carrying the operation name and the policy's
`maxAttempts` as the attempt count — the configured maximum, **not**
the number of attempts performed, so the reported count is
`maxAttempts` even when the very first error is non-retryable. -/
theorem c5_retry_exhausted_amended :
    ∀ (E A : Type) (fn : Nat → Except E A) (sr : E → Bool) (op : String)
      (n : Nat) (ex : RetryExhaustedE E) (inv : Nat),
      withRetry fn sr op n = .exhausted ex inv → 1 ≤ n →
      ex.operation = op ∧ ex.attempts = n ∧ 1 ≤ inv ∧
        ∃ e, fn inv = .error e ∧ ex.lastError = some e := by
  intro E A fn sr op n ex inv h hn
  have := withRetryGo_exhausted_spec fn sr op n n 0 none ex inv h (by omega)
  have hinv : 1 ≤ inv := by
    have := this.2.2.2.1 hn
    omega
  exact ⟨this.1, this.2.1, hinv, this.2.2.2.2 hinv⟩

/-- Witness for C5 (amended) at a concrete non-retryable failure. -/
theorem c5_retry_exhausted_amended_witness :
    (⟨"op", 3, some "boom"⟩ : RetryExhaustedE String).operation = "op" ∧
    (⟨"op", 3, some "boom"⟩ : RetryExhaustedE String).attempts = 3 ∧ 1 ≤ 1 ∧
    ∃ e, (fun _ => .error "boom" : Nat → Except String Nat) 1 = .error e ∧
      (⟨"op", 3, some "boom"⟩ : RetryExhaustedE String).lastError = some e :=
  c5_retry_exhausted_amended String Nat (fun _ => .error "boom") (fun _ => false)
    "op" 3 ⟨"op", 3, some "boom"⟩ 1 rfl (by decide)

/-! ## C6: the LRU cache with TTL -/

theorem evictLoop_of_lt {K V : Type} [DecidableEq K] (m : Nat)
    (l : List (K × CacheEntry V)) (h : l.length < m) : evictLoop m l = l := by
  cases l with
  | nil => rfl
  | cons x xs =>
    simp only [evictLoop]
    rw [if_neg (Nat.not_le.mpr h)]

theorem mapDelete_of_not_mem {K V : Type} [DecidableEq K] (k : K)
    (l : List (K × CacheEntry V)) (h : ∀ p ∈ l, p.1 ≠ k) : mapDelete k l = l := by
  unfold mapDelete
  rw [List.filter_eq_self]
  intro p hp
  simpa using h p hp

theorem mapGet_mapDelete_self {K V : Type} [DecidableEq K] (k : K)
    (l : List (K × CacheEntry V)) : mapGet k (mapDelete k l) = none := by
  have : (mapDelete k l).find? (fun p => p.1 = k) = none := by
    rw [List.find?_eq_none]
    intro p hp
    simp only [mapDelete, List.mem_filter, decide_eq_true_eq] at hp
    simp [hp.2]
  simp [mapGet, this]

theorem mapGet_append_right {K V : Type} [DecidableEq K] (k : K)
    {l1 l2 : List (K × CacheEntry V)} (h : ∀ p ∈ l1, p.1 ≠ k) :
    mapGet k (l1 ++ l2) = mapGet k l2 := by
  induction l1 with
  | nil => rfl
  | cons x xs ih =>
    have hx : x.1 ≠ k := h x (by simp)
    simp only [List.cons_append]
    unfold mapGet
    rw [List.find?_cons_of_neg]
    · exact ih fun p hp => h p (List.mem_cons_of_mem _ hp)
    · simp [hx]

theorem evictLoop_subset {K V : Type} [DecidableEq K] (m : Nat) :
    ∀ (l : List (K × CacheEntry V)) (p : K × CacheEntry V),
      p ∈ evictLoop m l → p ∈ l := by
  intro l
  induction l with
  | nil => intro p h; simp [evictLoop] at h
  | cons x xs ih =>
    intro p h
    by_cases hc : m ≤ (x :: xs).length
    · simp only [evictLoop, if_pos hc] at h
      exact List.mem_cons_of_mem _ (ih p h)
    · simp only [evictLoop, if_neg hc] at h
      exact h

theorem mapGet_lruSet_self {K V : Type} [DecidableEq K] (now : Int) (k : K)
    (v : V) (st : LRU K V) :
    mapGet k (lruSet now k v st).cache = some ⟨v, now + st.ttlMs⟩ := by
  unfold lruSet
  rw [mapGet_append_right]
  · simp [mapGet, List.find?]
  · intro p hp
    have hp2 : p ∈ mapDelete k st.cache := evictLoop_subset _ _ p hp
    simp only [mapDelete, List.mem_filter, decide_eq_true_eq] at hp2
    exact hp2.2

theorem lruGet_live {K V : Type} [DecidableEq K] (now : Int) {k : K}
    {st : LRU K V} {e : CacheEntry V} (h : mapGet k st.cache = some e)
    (hexp : ¬ now > e.expiry) :
    lruGet now k st =
      (some e.value, { st with cache := mapDelete k st.cache ++ [(k, e)] }) := by
  unfold lruGet
  rw [h]
  simp [hexp]

theorem lruGet_expired {K V : Type} [DecidableEq K] (now : Int) {k : K}
    {st : LRU K V} {e : CacheEntry V} (h : mapGet k st.cache = some e)
    (hexp : now > e.expiry) :
    lruGet now k st = (none, { st with cache := mapDelete k st.cache }) := by
  unfold lruGet
  rw [h]
  simp [hexp]

/-- C6.  At capacity, inserting a new key evicts exactly the
least-recently-accessed (first) entry; a `get` on a live key returns
its value and moves it to most-recently-used — so a following
capacity-triggered eviction removes another key instead; a `get` past
the TTL returns absent and removes the entry, and expiry is checked
only at read time: an expired entry still occupies its slot after an
unrelated `set`. -/
theorem c6_lru_cache_behaviour :
    (∀ (K V : Type) [DecidableEq K] (now : Int) (st : LRU K V) (k : K) (v : V),
        st.cache.length = st.maxSize → 1 ≤ st.maxSize →
        (∀ p ∈ st.cache, p.1 ≠ k) →
        (lruSet now k v st).cache =
          st.cache.tail ++ [(k, ⟨v, now + st.ttlMs⟩)]) ∧
    (∀ (K V : Type) [DecidableEq K] (now : Int) (st : LRU K V) (k : K)
        (e : CacheEntry V), mapGet k st.cache = some e → ¬ now > e.expiry →
        lruGet now k st =
          (some e.value, { st with cache := mapDelete k st.cache ++ [(k, e)] })) ∧
    (∀ (K V : Type) [DecidableEq K] (now : Int) (st : LRU K V) (k : K)
        (e : CacheEntry V), mapGet k st.cache = some e → now > e.expiry →
        lruGet now k st = (none, { st with cache := mapDelete k st.cache }) ∧
          mapGet k (lruGet now k st).2.cache = none) ∧
    ((lruGet 0 1 (lruSet 0 4 40 c6CacheABC)).1 = none ∧
      (lruGet 0 2 (lruSet 0 4 40 c6CacheABC)).1 = some 20) ∧
    ((lruGet 0 1 c6CacheABC).1 = some 10 ∧
      (lruGet 0 1 c6AfterSetD).1 = some 10 ∧
      (lruGet 0 2 c6AfterSetD).1 = none) ∧
    (lruGet 100 1 c6TtlCache = (none, (⟨3, 50, []⟩ : LRU Nat Nat)) ∧
      mapGet 1 c6TtlAfterSet.cache = some ⟨10, 50⟩ ∧
      c6TtlAfterSet.cache.length = 2) := by
  refine ⟨?_, ?_, ?_, by decide, by decide, by decide⟩
  · intro K V _ now st k v hlen hpos hnew
    have key : evictLoop st.maxSize (mapDelete k st.cache) = st.cache.tail := by
      rw [mapDelete_of_not_mem k st.cache hnew]
      obtain ⟨x, xs, hc⟩ : ∃ x xs, st.cache = x :: xs := by
        cases hcc : st.cache with
        | nil => rw [hcc] at hlen; simp at hlen; omega
        | cons x xs => exact ⟨x, xs, rfl⟩
      rw [hc]
      have hlen2 : (x :: xs).length = st.maxSize := by rw [← hc]; exact hlen
      have h1 : evictLoop st.maxSize (x :: xs) = evictLoop st.maxSize xs := by
        simp only [evictLoop]
        rw [if_pos (le_of_eq hlen2.symm)]
      rw [h1, evictLoop_of_lt _ _ (by simp at hlen2; omega)]
      rfl
    show evictLoop st.maxSize (mapDelete k st.cache) ++ [(k, ⟨v, now + st.ttlMs⟩)] =
      st.cache.tail ++ [(k, ⟨v, now + st.ttlMs⟩)]
    rw [key]
  · intro K V _ now st k e h hexp
    exact lruGet_live now h hexp
  · intro K V _ now st k e h hexp
    refine ⟨lruGet_expired now h hexp, ?_⟩
    rw [lruGet_expired now h hexp]
    exact mapGet_mapDelete_self k st.cache

/-- Witness for C6: at-capacity insertion into the concrete three-entry
cache, and an expired read, via the theorem itself. -/
theorem c6_lru_cache_behaviour_witness :
    ((lruSet 0 4 40 c6CacheABC).cache =
      c6CacheABC.cache.tail ++ [(4, ⟨40, 0 + c6CacheABC.ttlMs⟩)]) ∧
    (lruGet 100 1 c6TtlCache =
        (none, { c6TtlCache with cache := mapDelete 1 c6TtlCache.cache }) ∧
      mapGet 1 (lruGet 100 1 c6TtlCache).2.cache = none) :=
  ⟨c6_lru_cache_behaviour.1 Nat Nat 0 c6CacheABC 4 40 (by decide) (by decide)
      (by decide),
    c6_lru_cache_behaviour.2.2.1 Nat Nat 100 c6TtlCache 1 ⟨10, 50⟩ (by decide)
      (by decide)⟩

/-! ## C7: the ONS cache avoids repeat DNS work -/

theorem lruGet_config {K V : Type} [DecidableEq K] (now : Int) (k : K)
    (st : LRU K V) :
    (lruGet now k st).2.ttlMs = st.ttlMs ∧
      (lruGet now k st).2.maxSize = st.maxSize := by
  unfold lruGet
  cases mapGet k st.cache with
  | none => exact ⟨rfl, rfl⟩
  | some e => by_cases h : now > e.expiry <;> simp [h]

/-- On a cache hit `resolveOns` returns the cached resolution merged
with the freshly parsed identifier, touches no oracle, and performs
zero DNS fetches. -/
theorem resolveOns_cache_hit (dns : Nat → FetchOutcome DnsJson) (now : Int)
    (st : SvcState) (inp : SgtinInput) (parsed : ParsedSgtin)
    (cached : OnsCacheData) (cache1 : LRU String OnsCacheData)
    (hparse : parseSgtin inp = .ok parsed) (huse : st.useCache = true)
    (hget : lruGet now (sgtinToGtin13 parsed) st.onsCache = (some cached, cache1)) :
    resolveOns dns now st inp =
      (.ok (ofCacheData cached parsed), { st with onsCache := cache1 }, 0) := by
  simp only [resolveOns, hparse, huse, if_true, hget]

/-- C7.  A first, cache-missing resolution that succeeds stores in the
cache — keyed by the GTIN-13 — exactly the resolution **without** its
`parsed` component; any second resolution of the same identifier
within the TTL performs zero DNS fetches (with an arbitrary DNS
oracle) and returns the same resolution, its `parsed` freshly
recomputed. -/
theorem c7_ons_cache_no_second_dns :
    ∀ (dns : Nat → FetchOutcome DnsJson) (now1 now2 : Int) (st : SvcState)
      (u : String) (parsed : ParsedSgtin) (cache1 : LRU String OnsCacheData)
      (dnsData : DnsJson) (inv : Nat) (svc : ServiceDescriptor),
      parseSgtin (.str u) = .ok parsed →
      st.useCache = true →
      lruGet now1 (sgtinToGtin13 parsed) st.onsCache = (none, cache1) →
      withRetry
          (dnsOp dns (gtinToFqdn st.onsSuffix (sgtinToGtin13 parsed)))
          defaultShouldRetry
          ("DNS resolution " ++ gtinToFqdn st.onsSuffix (sgtinToGtin13 parsed))
          retryMaxAttempts = .ok dnsData inv →
      dnsData.Status = 0 → dnsData.Answer ≠ [] →
      (resolveOnsNaptrServices (dnsData.Answer.map (·.data))).find?
          (fun s => containsSeq "GetTireBySgtin".toList s.service.toList) =
        some svc →
      now2 ≤ now1 + st.onsCache.ttlMs →
      ∃ (st1 : SvcState) (r : OnsResult),
        resolveOns dns now1 st (.str u) = (.ok r, st1, inv) ∧
        r.parsed = parsed ∧
        mapGet r.gtin13 st1.onsCache.cache =
          some ⟨toCacheData r, now1 + st.onsCache.ttlMs⟩ ∧
        ∀ dns2 : Nat → FetchOutcome DnsJson, ∃ cache2,
          resolveOns dns2 now2 st1 (.str u) =
            (.ok r, { st1 with onsCache := cache2 }, 0) := by
  intro dns now1 now2 st u parsed cache1 dnsData inv svc hparse huse hget hretry
    hst hans hfind hfresh
  have httl : cache1.ttlMs = st.onsCache.ttlMs := by
    have := (lruGet_config now1 (sgtinToGtin13 parsed) st.onsCache).1
    rw [hget] at this
    exact this
  have hd : ∃ d : OnsCacheData,
      d = ⟨sgtinToGtin13 parsed, gtinToFqdn st.onsSuffix (sgtinToGtin13 parsed),
        getManufacturerConfig parsed.companyPrefix, svc.url,
        resolveOnsNaptrServices (dnsData.Answer.map (·.data))⟩ := ⟨_, rfl⟩
  obtain ⟨d, hdval⟩ := hd
  refine ⟨{ st with onsCache := lruSet now1 (sgtinToGtin13 parsed) d cache1 },
    ofCacheData d parsed, ?_, by rw [hdval]; rfl, ?_, ?_⟩
  · simp only [resolveOns, hparse, huse, if_true, hget, hretry, hst, hans,
      hfind, hdval]
    simp [ofCacheData, toCacheData]
  · have hm := mapGet_lruSet_self now1 (sgtinToGtin13 parsed) d cache1
    rw [httl] at hm
    have hkey : (ofCacheData d parsed).gtin13 = sgtinToGtin13 parsed := by
      rw [hdval]; rfl
    have hback : toCacheData (ofCacheData d parsed) = d := by
      rw [hdval]; rfl
    rw [hkey, hback]
    exact hm
  · intro dns2
    have hm := mapGet_lruSet_self now1 (sgtinToGtin13 parsed) d cache1
    have hexp : ¬ now2 > now1 + cache1.ttlMs := by rw [httl]; omega
    have hget2 := lruGet_live now2 hm hexp
    exact ⟨_, resolveOns_cache_hit dns2 now2 _ (.str u) parsed _ _ hparse huse
      hget2⟩

/-- Witness for C7: the Michelin identifier resolved against the
concrete DNS oracle, then re-resolved 1 second later. -/
theorem c7_ons_cache_no_second_dns_witness :
    ∃ (st1 : SvcState) (r : OnsResult),
      resolveOns dnsOracleOk 0 svcStateInit (.str sgtinMichelin) =
        (.ok r, st1, 1) ∧
      r.parsed = parsedMichelin ∧
      mapGet r.gtin13 st1.onsCache.cache =
        some ⟨toCacheData r, 0 + svcStateInit.onsCache.ttlMs⟩ ∧
      ∀ dns2 : Nat → FetchOutcome DnsJson, ∃ cache2,
        resolveOns dns2 1000 st1 (.str sgtinMichelin) =
          (.ok r, { st1 with onsCache := cache2 }, 0) :=
  c7_ons_cache_no_second_dns dnsOracleOk 0 1000 svcStateInit sgtinMichelin
    parsedMichelin svcStateInit.onsCache ⟨0, [⟨bareNaptrRecordData⟩]⟩ 1
    tireServiceDescriptor rfl rfl rfl rfl rfl (by decide) rfl (by decide)

/-! ## C8: all-candidates failure degrades to a null payload -/

/-- When every URL of the list draws a falling-through response, the
candidate loop returns `null`. -/
theorem tryUrls_none (http : String → FetchOutcome (Option TireData)) :
    ∀ urls : List String, (∀ u ∈ urls, httpFails (http u) = true) →
      tryUrls http urls = none := by
  intro urls
  induction urls with
  | nil => intro _; rfl
  | cons u rest ih =>
    intro h
    have hu := h u (by simp)
    unfold tryUrls
    cases hhttp : http u with
    | resp status body =>
      cases body with
      | some d =>
        rw [hhttp] at hu
        simp only [httpFails, Bool.not_eq_true'] at hu
        simp [hu, ih fun v hv => h v (List.mem_cons_of_mem _ hv)]
      | none => exact ih fun v hv => h v (List.mem_cons_of_mem _ hv)
    | fail e => exact ih fun v hv => h v (List.mem_cons_of_mem _ hv)

/-- The cached-token fast path of `authenticate`. -/
theorem authenticate_cached (auth : Nat → FetchOutcome String)
    (jwtExp : String → Option Int) (jsonTok : String → Option TokenJson)
    (env : String) (now : Int) (st : SvcState) (tok : String) (exp : Int)
    (htok : st.token = some tok) (hexp : st.tokenExpiry = some exp)
    (hne : tok ≠ "") (hnz : exp ≠ 0) (hfresh : now < exp - 60000) :
    authenticate auth jwtExp jsonTok env now st = .ok (tok, st) := by
  unfold authenticate
  rw [htok, hexp]
  simp [hne, hnz, hfresh]

/-- C8.  When the ONS resolution succeeds, a valid token is at hand,
and every candidate manufacturer URL fails (a 404 like any other
non-2xx status or network error only falls through to the next
candidate), `getTireInfo` does not raise: it returns a `TireResult`
whose `data` is `null` while `sgtin`, `manufacturer`, `gtin13` and
`apiUrl` are still populated from the resolution. -/
theorem c8_all_failures_null_data :
    ∀ (dns : Nat → FetchOutcome DnsJson) (auth : Nat → FetchOutcome String)
      (jwtExp : String → Option Int) (jsonTok : String → Option TokenJson)
      (http : String → FetchOutcome (Option TireData)) (env : String)
      (now : Int) (st : SvcState) (u : String) (ons : OnsResult)
      (st1 : SvcState) (n1 : Nat) (tok : String) (exp : Int),
      resolveOns dns now st (.str u) = (.ok ons, st1, n1) →
      st1.token = some tok → tok ≠ "" →
      st1.tokenExpiry = some exp → exp ≠ 0 → now < exp - 60000 →
      (∀ url ∈ candidateUrls ons.apiUrl u ons.manufacturer,
        httpFails (http url) = true) →
      getTireInfo dns auth jwtExp jsonTok http env now st u =
        .ok (⟨u, ons.manufacturer.name, ons.gtin13, ons.apiUrl, none⟩, st1) := by
  intro dns auth jwtExp jsonTok http env now st u ons st1 n1 tok exp hres htok
    hne hexp hnz hfresh hfail
  have hcall : callManufacturerApi auth jwtExp jsonTok http env now st1
      ons.apiUrl u ons.manufacturer = .ok (none, st1) := by
    simp only [callManufacturerApi,
      authenticate_cached auth jwtExp jsonTok env now st1 tok exp htok hexp hne
        hnz hfresh,
      tryUrls_none http _ hfail]
  simp only [getTireInfo, hres, hcall]

/-- Witness for C8: the Michelin identifier against an all-404
manufacturer API. -/
theorem c8_all_failures_null_data_witness :
    getTireInfo dnsOracleOk (fun _ => .resp 200 "unused") (fun _ => none)
        (fun _ => none) (fun _ => .resp 404 none) "testing" 0 svcStateInit
        sgtinMichelin =
      .ok (⟨sgtinMichelin, "Michelin", "0866999882290",
          "https://api.example.com/v1", none⟩,
        (resolveOns dnsOracleOk 0 svcStateInit (.str sgtinMichelin)).2.1) :=
  c8_all_failures_null_data dnsOracleOk (fun _ => .resp 200 "unused")
    (fun _ => none) (fun _ => none) (fun _ => .resp 404 none) "testing" 0
    svcStateInit sgtinMichelin
    (ofCacheData
      ⟨"0866999882290", "0.9.2.2.8.8.9.9.9.6.6.8.0.gtin.gs1.id.testing.gdso.org",
        getManufacturerConfig "086699", "https://api.example.com/v1",
        [tireServiceDescriptor]⟩ parsedMichelin)
    (resolveOns dnsOracleOk 0 svcStateInit (.str sgtinMichelin)).2.1 1
    "cached-token" 99999999 rfl rfl (by decide) rfl (by decide) (by decide)
    (fun _ _ => rfl)

/-! ## C9: `parseSgtin` accepts exactly the anchored grammar -/

theorem stripPrefixChars_eq_some :
    ∀ (p l r : List Char), stripPrefixChars p l = some r ↔ l = p ++ r
  | [], l, r => by simp [stripPrefixChars]
  | p :: ps, [], r => by simp [stripPrefixChars]
  | p :: ps, c :: cs, r => by
    simp only [stripPrefixChars, List.cons_append, List.cons.injEq]
    by_cases h : c = p
    · simp [h, stripPrefixChars_eq_some ps cs r]
    · simp [h]

theorem mem_takeWhile_pred {p : Char → Bool} :
    ∀ (l : List Char), ∀ c ∈ l.takeWhile p, p c = true
  | [], c, h => by simp [List.takeWhile] at h
  | x :: xs, c, h => by
    rw [List.takeWhile_cons] at h
    by_cases hx : p x
    · rw [if_pos hx] at h
      rcases List.mem_cons.mp h with h1 | h2
      · rw [h1]; exact hx
      · exact mem_takeWhile_pred xs c h2
    · rw [if_neg hx] at h
      cases h

theorem takeWhile_append_eq {p : Char → Bool} :
    ∀ (a rest : List Char), (∀ c ∈ a, p c = true) →
      (∀ x, rest.head? = some x → p x = false) →
      (a ++ rest).takeWhile p = a ∧ (a ++ rest).dropWhile p = rest
  | [], rest, _, hR => by
    cases rest with
    | nil => simp
    | cons x xs =>
      simp [List.takeWhile_cons, List.dropWhile_cons, hR x rfl]
  | y :: ys, rest, hA, hR => by
    have hy : p y = true := hA y (by simp)
    have ih := takeWhile_append_eq ys rest (fun c hc => hA c (by simp [hc])) hR
    simp [List.takeWhile_cons, List.dropWhile_cons, hy, ih.1, ih.2]

theorem not_isEmpty_ne_nil {x : List Char} (hx : ¬ x.isEmpty = true) :
    x ≠ [] :=
  fun heq => hx (by rw [heq]; rfl)

theorem isEmpty_eq_nil {x : List Char} (hx : x.isEmpty = true) : x = [] := by
  cases x with
  | nil => rfl
  | cons y ys => simp [List.isEmpty] at hx

/-- Soundness of the SGTIN body scanner: a successful scan exhibits the
grammar's decomposition. -/
theorem scanSgtinBody_sound {l a b c : List Char}
    (h : scanSgtinBody l = some (a, b, c)) :
    l = a ++ '.' :: (b ++ '.' :: c) ∧ a ≠ [] ∧ b ≠ [] ∧ c ≠ [] ∧
      (∀ ch ∈ a, ch.isDigit = true) ∧ (∀ ch ∈ b, ch.isDigit = true) ∧
      (∀ ch ∈ c, ch.isDigit = true) := by
  unfold scanSgtinBody at h
  dsimp only [] at h
  split at h
  · exact Option.noConfusion h
  next h1 =>
    split at h
    next r2 heq2 =>
      split at h
      · exact Option.noConfusion h
      next h3 =>
        split at h
        next r4 heq4 =>
          split at h
          · exact Option.noConfusion h
          next h5 =>
            split at h
            next h6 =>
              obtain ⟨ha, hb, hc⟩ : l.takeWhile Char.isDigit = a ∧
                  r2.takeWhile Char.isDigit = b ∧
                  r4.takeWhile Char.isDigit = c := by
                have := Option.some.inj h
                exact ⟨congrArg (·.1) this, congrArg (·.2.1) this,
                  congrArg (·.2.2) this⟩
              have hr5 : r4.dropWhile Char.isDigit = [] := isEmpty_eq_nil h6
              have hl : l = a ++ '.' :: (b ++ '.' :: c) := by
                conv_lhs => rw [← List.takeWhile_append_dropWhile
                  (p := Char.isDigit) (l := l)]
                rw [ha, heq2]
                congr 1
                congr 1
                conv_lhs => rw [← List.takeWhile_append_dropWhile
                  (p := Char.isDigit) (l := r2)]
                rw [hb, heq4]
                congr 1
                congr 1
                conv_lhs => rw [← List.takeWhile_append_dropWhile
                  (p := Char.isDigit) (l := r4)]
                rw [hc, hr5, List.append_nil]
              refine ⟨hl, ?_, ?_, ?_, ?_, ?_, ?_⟩
              · rw [← ha]; exact not_isEmpty_ne_nil h1
              · rw [← hb]; exact not_isEmpty_ne_nil h3
              · rw [← hc]; exact not_isEmpty_ne_nil h5
              · rw [← ha]; exact mem_takeWhile_pred l
              · rw [← hb]; exact mem_takeWhile_pred r2
              · rw [← hc]; exact mem_takeWhile_pred r4
            next => exact Option.noConfusion h
        next => exact Option.noConfusion h
    next => exact Option.noConfusion h

/-- Completeness of the SGTIN body scanner on any grammar
decomposition. -/
theorem scanSgtinBody_complete (a b c : List Char) (ha : a ≠ []) (hb : b ≠ [])
    (hc : c ≠ []) (hda : ∀ ch ∈ a, ch.isDigit = true)
    (hdb : ∀ ch ∈ b, ch.isDigit = true) (hdc : ∀ ch ∈ c, ch.isDigit = true) :
    scanSgtinBody (a ++ '.' :: (b ++ '.' :: c)) = some (a, b, c) := by
  have hdot : ∀ (rest : List Char) (x : Char),
      ('.' :: rest).head? = some x → Char.isDigit x = false := by
    intro rest x hx
    cases hx
    rfl
  have h1 := takeWhile_append_eq (p := Char.isDigit) a ('.' :: (b ++ '.' :: c))
    hda (hdot _)
  have h2 := takeWhile_append_eq (p := Char.isDigit) b ('.' :: c) hdb (hdot _)
  have h3 := takeWhile_append_eq (p := Char.isDigit) c [] hdc
    (fun x hx => by cases hx)
  rw [List.append_nil] at h3
  have ha' : a.isEmpty = false := by
    cases a with
    | nil => exact absurd rfl ha
    | cons x xs => rfl
  have hb' : b.isEmpty = false := by
    cases b with
    | nil => exact absurd rfl hb
    | cons x xs => rfl
  have hc' : c.isEmpty = false := by
    cases c with
    | nil => exact absurd rfl hc
    | cons x xs => rfl
  simp [scanSgtinBody, h1.1, h1.2, h2.1, h2.2, h3.1, h3.2, ha', hb', hc']

/-- `parseSgtin` always fails through `SgtinParseError` when it fails
at all. -/
theorem parseSgtin_error_form :
    ∀ inp : SgtinInput, (∃ p, parseSgtin inp = .ok p) ∨
      ∃ m, parseSgtin inp = .error (.sgtinParse m) := by
  intro inp
  cases inp with
  | null => exact .inr ⟨"null", rfl⟩
  | str s =>
    by_cases h0 : s = ""
    · exact .inr ⟨s, by unfold parseSgtin parseSgtinStr; dsimp only []; rw [if_pos h0]⟩
    cases h1 : stripPrefixChars sgtinUrnLead s.toList with
    | none =>
      exact .inr ⟨s, by
        unfold parseSgtin parseSgtinStr; dsimp only []; rw [if_neg h0]; simp only [h1]⟩
    | some rest =>
      cases h2 : scanSgtinBody rest with
      | none =>
        exact .inr ⟨s, by
          unfold parseSgtin parseSgtinStr; dsimp only []; rw [if_neg h0]; simp only [h1, h2]⟩
      | some t =>
        obtain ⟨a, b, c⟩ := t
        exact .inl ⟨⟨String.mk a, String.mk b, String.mk c, s⟩, by
          unfold parseSgtin parseSgtinStr; dsimp only []; rw [if_neg h0]; simp only [h1, h2]⟩

/-- C9.  `parseSgtin` accepts exactly the strings matching the anchored
grammar `^urn:epc:id:sgtin:(digits).(digits).(digits)$` — so empty
strings, non-strings (`null`), inputs missing a segment, wrong scheme
prefixes and non-digit segments are all rejected — and every rejection
raises the `MalformedIdentifier` error (`SgtinParseError`). -/
theorem c9_parse_accepts_exactly_grammar :
    (∀ inp : SgtinInput,
        (∃ p, parseSgtin inp = .ok p) ↔ ∃ s, inp = .str s ∧ SgtinGrammar s) ∧
    (∀ inp : SgtinInput, (¬ ∃ p, parseSgtin inp = .ok p) →
        ∃ m, parseSgtin inp = .error (.sgtinParse m)) := by
  constructor
  · intro inp
    constructor
    · rintro ⟨p, hp⟩
      cases inp with
      | null => exact Except.noConfusion hp
      | str s =>
        refine ⟨s, rfl, ?_⟩
        unfold parseSgtin parseSgtinStr at hp
        dsimp only [] at hp
        by_cases h0 : s = ""
        · rw [if_pos h0] at hp; exact Except.noConfusion hp
        rw [if_neg h0] at hp
        cases h1 : stripPrefixChars sgtinUrnLead s.toList with
        | none => simp only [h1] at hp; exact Except.noConfusion hp
        | some rest =>
          simp only [h1] at hp
          cases h2 : scanSgtinBody rest with
          | none => simp only [h2] at hp; exact Except.noConfusion hp
          | some t =>
            obtain ⟨a, b, c⟩ := t
            obtain ⟨hl, ha, hb, hc, hda, hdb, hdc⟩ := scanSgtinBody_sound h2
            exact ⟨a, b, c, ha, hb, hc, hda, hdb, hdc, by
              rw [(stripPrefixChars_eq_some _ _ _).mp h1, hl,
                List.append_assoc]⟩
    · rintro ⟨s, rfl, hgram⟩
      obtain ⟨a, b, c, ha, hb, hc, hda, hdb, hdc, hlist⟩ := hgram
      have h0 : s ≠ "" := by
        intro h0
        rw [h0] at hlist
        exact List.noConfusion hlist
      have hstrip : stripPrefixChars sgtinUrnLead s.toList =
          some (a ++ '.' :: (b ++ '.' :: c)) :=
        (stripPrefixChars_eq_some _ _ _).mpr hlist
      have hscan := scanSgtinBody_complete a b c ha hb hc hda hdb hdc
      exact ⟨⟨String.mk a, String.mk b, String.mk c, s⟩, by
        unfold parseSgtin parseSgtinStr
        dsimp only []
        rw [if_neg h0]
        simp only [hstrip, hscan]⟩
  · intro inp h
    rcases parseSgtin_error_form inp with h1 | h2
    · exact absurd h1 h
    · exact h2

/-- Witness for C9: the Michelin URN is accepted (so it satisfies the
grammar), and `null` is rejected through `SgtinParseError`. -/
theorem c9_parse_accepts_exactly_grammar_witness :
    (∃ s, SgtinInput.str sgtinMichelin = .str s ∧ SgtinGrammar s) ∧
    ∃ m, parseSgtin .null = .error (.sgtinParse m) :=
  ⟨(c9_parse_accepts_exactly_grammar.1 (.str sgtinMichelin)).mp
      ⟨parsedMichelin, rfl⟩,
    c9_parse_accepts_exactly_grammar.2 .null
      (fun ⟨_, hp⟩ => Except.noConfusion hp)⟩

/-! ## C10: interpretation of the token-endpoint response body -/

/-- C10 counterexample.  The body `"eyJX"` — not a three-dot-separated
triplet — is stored directly as a bare token (with the default 1-hour
expiry), while the genuine triplet `"abc.def.ghi"` is **not** stored as
a bare token: it goes to `JSON.parse`, whose `SyntaxError` escapes.
Hence "stored directly exactly when structurally a three-dot-separated
triplet" is false in both directions: the code branches on the `eyJ`
prefix. -/
theorem c10_auth_body_counterexample :
    (authenticate (fun _ => .resp 200 "eyJX") (fun _ => none) (fun _ => none)
        "testing" 0 svcStateNoToken).map (·.1) = .ok "eyJX" ∧
    (splitOnChar '.' "eyJX".toList).length ≠ 3 ∧
    authenticate (fun _ => .resp 200 "abc.def.ghi") (fun _ => none)
        (fun _ => none) "testing" 0 svcStateNoToken = .error .jsonSyntax ∧
    (splitOnChar '.' "abc.def.ghi".toList).length = 3 := by
  refine ⟨by rfl, by decide, by rfl, by decide⟩

/-- C10 (amended).  With no cached token and credentials set, when the
token endpoint's 2xx body is `body`: the body is stored directly as a
bare token exactly when it starts with `"eyJ"` — the expiry then comes
from decoding the middle dot-separated segment of the trimmed body
(`exp * 1000`), defaulting to now + 1 hour when there is no middle
segment or its decode fails; any other body is `JSON.parse`d (an
unparseable body raises that `SyntaxError`, untyped) and the token is
taken from `AccessToken`/`access_token`/`IdToken` with expiry
`now + (expires_in or 3600) seconds`; `AuthenticationFailed` is raised
when no truthy token field exists. -/
theorem c10_auth_body_amended :
    ∀ (auth : Nat → FetchOutcome String) (jwtExp : String → Option Int)
      (jsonTok : String → Option TokenJson) (env : String) (now : Int)
      (st : SvcState) (body : String),
      st.token = none → st.username ≠ "" → st.password ≠ "" →
      (∀ i, auth i = .resp 200 body) →
      ((∀ seg e, strStartsWith body "eyJ" = true →
          (splitOnChar '.' (jsTrim body).toList).get? 1 = some seg →
          jwtExp (String.mk seg) = some e →
          authenticate auth jwtExp jsonTok env now st =
            .ok (jsTrim body,
              { st with token := some (jsTrim body), tokenExpiry := some (e * 1000) })) ∧
        (strStartsWith body "eyJ" = true →
          ((splitOnChar '.' (jsTrim body).toList).get? 1).bind
              (fun seg => jwtExp (String.mk seg)) = none →
          authenticate auth jwtExp jsonTok env now st =
            .ok (jsTrim body,
              { st with token := some (jsTrim body), tokenExpiry := some (now + 3600000) })) ∧
        (strStartsWith body "eyJ" = false → jsonTok body = none →
          authenticate auth jwtExp jsonTok env now st = .error .jsonSyntax) ∧
        (∀ data tok, strStartsWith body "eyJ" = false →
          jsonTok body = some data →
          jsOrStr data.AccessToken (jsOrStr data.access_token data.IdToken) =
            some tok →
          tok ≠ "" →
          authenticate auth jwtExp jsonTok env now st =
            .ok (tok,
              { st with token := some tok, tokenExpiry := some (now + jsOrInt data.expires_in 3600 * 1000) })) ∧
        (∀ data, strStartsWith body "eyJ" = false → jsonTok body = some data →
          (jsOrStr data.AccessToken (jsOrStr data.access_token data.IdToken) =
              none ∨
            jsOrStr data.AccessToken (jsOrStr data.access_token data.IdToken) =
              some "") →
          authenticate auth jwtExp jsonTok env now st =
            .error (.authentication "Pas de token dans la réponse" none))) := by
  intro auth jwtExp jsonTok env now st body htok hu hp hauth
  have hop : authOp auth 1 = .ok body := by
    simp only [authOp, hauth 1]
    rfl
  have hw : withRetry (authOp auth) defaultShouldRetry "Authentication"
      retryMaxAttempts = .ok body 1 := by
    simp [withRetry, retryMaxAttempts, withRetryGo, hop]
  have hfresh : authenticate auth jwtExp jsonTok env now st =
      authenticate.authenticateFresh auth jwtExp jsonTok env now st := by
    unfold authenticate
    rw [htok]
  rw [hfresh]
  unfold authenticate.authenticateFresh
  rw [if_neg (by simp [hu, hp]), hw]
  dsimp only []
  refine ⟨?_, ?_, ?_, ?_, ?_⟩
  · intro seg e h1 h2 h3
    rw [if_pos h1]
    simp only [h2, h3]
  · intro h1 h2
    rw [if_pos h1]
    cases h2seg : (splitOnChar '.' (jsTrim body).toList).get? 1 with
    | none => rfl
    | some seg =>
      rw [h2seg] at h2
      simp only [Option.some_bind] at h2
      simp only [h2]
  · intro h1 h2
    rw [if_neg (by rw [h1]; exact Bool.false_ne_true), h2]
  · intro data tok h1 h2 h3 h4
    rw [if_neg (by rw [h1]; exact Bool.false_ne_true)]
    simp only [h2, h3]
    rw [if_neg h4]
  · intro data h1 h2 h3
    rw [if_neg (by rw [h1]; exact Bool.false_ne_true)]
    simp only [h2]
    rcases h3 with h3 | h3
    · simp only [h3]
    · simp [h3]

/-- Witness for C10 (amended): a well-formed JWT body with a decodable
middle segment. -/
theorem c10_auth_body_amended_witness :
    authenticate (fun _ => .resp 200 "eyJa.eyJb.sig") (fun _ => some 1234)
        (fun _ => none) "testing" 0 svcStateNoToken =
      .ok (jsTrim "eyJa.eyJb.sig",
        { svcStateNoToken with token := some (jsTrim "eyJa.eyJb.sig"), tokenExpiry := some (1234 * 1000) }) :=
  (c10_auth_body_amended (fun _ => .resp 200 "eyJa.eyJb.sig")
    (fun _ => some 1234) (fun _ => none) "testing" 0 svcStateNoToken
    "eyJa.eyJb.sig" rfl (by decide) (by decide) (fun _ => rfl)).1
    "eyJb".toList 1234 rfl rfl rfl

end Gdso
